import Mathlib

/-!
# Verification of the multi-collection voice feature store

Shallow embedding of `app/db/multi_collection_chroma_storage.py`
(class `MultiCollectionChromaStorage`) from the `le_bot_vpr` repository.

The vector index adapter (ChromaDB) is the opaque collaborator: a store is
modelled as an association list from tenant id to the list of records held in
that tenant's collection, in insertion order, and the adapter's nearest
neighbour query is modelled by an abstract distance function passed as a
parameter.  Exceptions raised by the adapter are modelled by explicit failure
flags (`queryFails`, `deleteFails`); the Python `try/except` structure then
determines the returned value on each failure path.
-/

namespace VPR

/-- Python `str.lower()` as used on relationship labels.  The labels the
source compares against are ASCII words plus the CJK word "本人" (which
`lower()` leaves unchanged), so ASCII lowercasing is exact here. -/
def pyLower (s : String) : String :=
  String.mk (s.data.map Char.toLower)

/-- Python `str.split(sep)` with a one-character separator, over the
character list: splits at every occurrence of `sep`, keeping empty pieces. -/
def splitChar (sep : Char) : List Char → List (List Char)
  | [] => [[]]
  | c :: cs =>
    match splitChar sep cs with
    | [] => [[]]
    | h :: t => if c = sep then [] :: h :: t else (c :: h) :: t

/-- Python `s.split('_')` (single-character separator). -/
def pySplit (sep : Char) (s : String) : List String :=
  (splitChar sep s.data).map String.mk

/-- Python `str(bool)`: `"True"` / `"False"`.  The source stores the derived
self flag in metadata as this string (`"is_user": str(is_user)`). -/
def pyBoolStr (b : Bool) : String :=
  if b then "True" else "False"

/-- One stored feature record: the embedding plus the metadata dictionary
written by `add_voice_feature` (`user_id`, `person_name`, `relationship`,
`is_user` as a string-encoded boolean, `created_at`, `created_timestamp`). -/
structure VoiceRec where
  voice_id : String
  user_id : String
  person_name : String
  relationship : String
  is_user : String
  created_at : String
  created_timestamp : Int
  embedding : List ℚ
deriving DecidableEq

/-- The persistent store: tenant id ↦ records of that tenant's collection,
in insertion order.  Collections are created on first use, so the list of
keys is exactly the set of known tenants (the `user_*` directories the
source enumerates for fan-out search and global statistics). -/
abbrev Store := List (String × List VoiceRec)

/-- Records of a tenant's collection ([] when the tenant has no collection). -/
def collectionOf : Store → String → List VoiceRec
  | [], _ => []
  | p :: rest, uid => if p.1 = uid then p.2 else collectionOf rest uid

/-- Whether a collection for the tenant already exists. -/
def knownTenant : Store → String → Bool
  | [], _ => false
  | p :: rest, uid => p.1 = uid || knownTenant rest uid

/-- `_get_user_collection`: get-or-create the tenant's dedicated collection
(`client.get_or_create_collection("user_{user_id}_voice_features")`).
Returns the collection's records together with the store, which gains an
empty collection when the tenant was unknown. -/
def getUserCollection (s : Store) (uid : String) : List VoiceRec × Store :=
  if knownTenant s uid then (collectionOf s uid, s)
  else ([], s ++ [(uid, [])])

/-- Replace the records of an existing tenant collection. -/
def setCollection : Store → String → List VoiceRec → Store
  | [], _, _ => []
  | p :: rest, uid, recs =>
    (if p.1 = uid then (uid, recs) else p) :: setCollection rest uid recs

/-- `add_voice_feature(user_id, person_name, feature_vector, relationship)`.
The nondeterministic environment inputs — the uuid4 hex fragment and the
current time — are explicit parameters (`uuidHex` models
`uuid.uuid4().hex[:8]`, `now` models `int(time.time())`, `nowIso` models
`datetime.now().isoformat()`).  Returns the generated `voice_id` and the
updated store. -/
def add_voice_feature (s : Store) (user_id person_name : String)
    (feature_vector : List ℚ) (relationship : String)
    (uuidHex : String) (now : Int) (nowIso : String) : String × Store :=
  let voice_id := user_id ++ "_" ++ person_name ++ "_" ++ uuidHex ++ "_" ++ toString now
  let is_user := ["本人", "self", "me", "本人"].contains (pyLower relationship)
  let r : VoiceRec :=
    { voice_id := voice_id
      user_id := user_id
      person_name := person_name
      relationship := relationship
      is_user := pyBoolStr is_user
      created_at := nowIso
      created_timestamp := now * 1000
      embedding := feature_vector }
  let cs := getUserCollection s user_id
  (voice_id, setCollection cs.2 user_id (cs.1 ++ [r]))

/-- The group key chosen by `get_user_all_features` for one record:
`"user"` for a self record, otherwise
`f"{voice_id.split('_')[2]}_{person_name}"`.  Every record written by
`add_voice_feature` has at least four `_`-separated segments, so the source's
index `[2]` is always in range; `getD` supplies a default only for ids of an
unreachable shape. -/
def groupKey (r : VoiceRec) : String :=
  if r.is_user == "True" then "user"
  else ((pySplit '_' r.voice_id).getD 2 "") ++ "_" ++ r.person_name

/-- Append a value under a key of an insertion-ordered dictionary
(Python dict semantics for `features_by_person`). -/
def dictAppend (d : List (String × List (List ℚ))) (k : String) (v : List ℚ) :
    List (String × List (List ℚ)) :=
  if d.any (fun p => p.1 == k) then
    d.map (fun p => if p.1 == k then (p.1, p.2 ++ [v]) else p)
  else d ++ [(k, [v])]

/-- `get_user_all_features(user_id)` (the spec's `getAllGrouped`): groups the
tenant's embeddings into an insertion-ordered dictionary keyed by
`groupKey`.  The get-or-create of the collection only ever adds an empty
collection and is elided here; no record is affected by it. -/
def get_user_all_features (s : Store) (uid : String) :
    List (String × List (List ℚ)) :=
  (collectionOf s uid).foldl (fun d r => dictAppend d (groupKey r) r.embedding) []

/-! ## Sorting

Python's `list.sort` is stable; `sort(key=..., reverse=True)` orders by the
key descending, preserving the original order of equal keys.  The adapter's
nearest-neighbour query returns candidates by distance ascending.  Both are
modelled by a stable insertion sort. -/

/-- Insert into a descending-by-key sorted list, before the first element
whose key is `≤` the inserted key (stable for the foldr-style sort below). -/
def insertDescBy (key : α → ℚ) (a : α) : List α → List α
  | [] => [a]
  | x :: xs => if key a < key x then x :: insertDescBy key a xs else a :: x :: xs

/-- Stable sort, descending by key: Python `sort(key=..., reverse=True)`. -/
def sortDescBy (key : α → ℚ) : List α → List α
  | [] => []
  | x :: xs => insertDescBy key x (sortDescBy key xs)

/-- Insert into an ascending-by-key sorted list (stable). -/
def insertAscBy (key : α → ℚ) (a : α) : List α → List α
  | [] => [a]
  | x :: xs => if key x < key a then x :: insertAscBy key a xs else a :: x :: xs

/-- Stable sort, ascending by key. -/
def sortAscBy (key : α → ℚ) : List α → List α
  | [] => []
  | x :: xs => insertAscBy key x (sortAscBy key xs)

/-! ## Similarity search -/

/-- Model of the adapter's `collection.query(query_embeddings=[q],
n_results=n)`: the `n` stored records nearest to `q` under the adapter's
distance, ascending, each paired with its distance. -/
def queryCollection (dist : List ℚ → List ℚ → ℚ) (recs : List VoiceRec)
    (q : List ℚ) (n : Nat) : List (VoiceRec × ℚ) :=
  (sortAscBy (fun rd => rd.2) (recs.map (fun r => (r, dist q r.embedding)))).take n

/-- One formatted search result, as built by `find_most_similar`. -/
structure SearchMatch where
  voice_id : String
  user_id : String
  person_id : String
  person_name : String
  relationship : String
  is_user : Bool
  similarity : ℚ
  distance : ℚ
  created_at : String
deriving DecidableEq

/-- Format one query hit: `similarity = 1 - distance/2` (cosine distance in
[0,2] mapped to similarity in [0,1]); `person_id` is the `voice_id`. -/
def toMatch (r : VoiceRec) (distance : ℚ) : SearchMatch :=
  { voice_id := r.voice_id
    user_id := r.user_id
    person_id := r.voice_id
    person_name := r.person_name
    relationship := r.relationship
    is_user := r.is_user == "True"
    similarity := 1 - distance / 2
    distance := distance
    created_at := r.created_at }

/-- One collection's query batch, formatted and filtered by
`similarity >= threshold` as in the per-hit loop of `find_most_similar`. -/
def filteredBatch (dist : List ℚ → List ℚ → ℚ) (recs : List VoiceRec)
    (q : List ℚ) (threshold : ℚ) (top_k : Nat) : List SearchMatch :=
  (queryCollection dist recs q top_k).filterMap
    (fun rd => if threshold ≤ 1 - rd.2 / 2 then some (toMatch rd.1 rd.2) else none)

/-- The pooled fan-out candidates: every known tenant's collection is queried
for up to `top_k` candidates, each batch is threshold-filtered, and the
survivors are concatenated.  A tenant whose query raises is skipped
(`except: continue`), modelled by `queryFails`. -/
def fanoutCandidates (dist : List ℚ → List ℚ → ℚ) (s : Store)
    (queryFails : String → Bool) (q : List ℚ) (threshold : ℚ) (top_k : Nat) :
    List SearchMatch :=
  (s.map (fun p =>
    if queryFails p.1 then []
    else filteredBatch dist (collectionOf s p.1) q threshold top_k)).flatten

/-- `similar_voices.sort(key=lambda x: x["similarity"], reverse=True)`
followed by `similar_voices[:top_k]`. -/
def rankTruncate (l : List SearchMatch) (k : Nat) : List SearchMatch :=
  (sortDescBy (fun m => m.similarity) l).take k

/-- `find_most_similar(query_vector, user_id, threshold, top_k)`.
`user_id = some uid` with `uid ≠ ""` queries only that tenant's collection;
Python truthiness sends both `None` and the empty string to the fan-out
branch (`if user_id:`).  A failing single-tenant query raises into the outer
handler, which returns `[]`; a failing per-tenant query inside fan-out only
skips that tenant. -/
def find_most_similar (dist : List ℚ → List ℚ → ℚ) (s : Store)
    (queryFails : String → Bool) (query_vector : List ℚ)
    (user_id : Option String) (threshold : ℚ) (top_k : Nat) :
    List SearchMatch :=
  match user_id with
  | some uid =>
    if uid = "" then
      rankTruncate (fanoutCandidates dist s queryFails query_vector threshold top_k) top_k
    else if queryFails uid then []
    else
      rankTruncate (filteredBatch dist (collectionOf s uid) query_vector threshold top_k) top_k
  | none =>
    rankTruncate (fanoutCandidates dist s queryFails query_vector threshold top_k) top_k

/-! ## Deletion -/

/-- The adapter's `collection.delete(ids=...)`: remove the records whose id
is listed. -/
def deleteIds (recs : List VoiceRec) (ids : List String) : List VoiceRec :=
  recs.filter (fun r => !(ids.contains r.voice_id))

/-- `delete_user_all_voices(user_id)`: enumerate all ids of the tenant's
collection and delete them in one batch, returning the count; `0` when the
tenant has no records.  A failing batch delete (`deleteFails`) raises into
the surrounding handler, which returns `0` and leaves the records in
place. -/
def delete_user_all_voices (s : Store) (uid : String) (deleteFails : Bool) :
    Nat × Store :=
  let cs := getUserCollection s uid
  let voice_ids := (cs.1.map (fun r => r.voice_id))
  if voice_ids.isEmpty then (0, cs.2)
  else if deleteFails then (0, cs.2)
  else (voice_ids.length, setCollection cs.2 uid (deleteIds cs.1 voice_ids))

/-- `delete_user_person_voices(user_id, person_name)`: collect the ids of the
records with this exact `person_name` and `is_user == 'False'`, batch-delete
them, and return their count; `0` when nothing matches.  A failing batch
delete returns `0` with the records unchanged. -/
def delete_user_person_voices (s : Store) (uid pname : String)
    (deleteFails : Bool) : Nat × Store :=
  let cs := getUserCollection s uid
  let voice_ids_to_delete :=
    ((cs.1.filter (fun r => r.person_name == pname && r.is_user == "False")).map
      (fun r => r.voice_id))
  if voice_ids_to_delete.isEmpty then (0, cs.2)
  else if deleteFails then (0, cs.2)
  else
    (voice_ids_to_delete.length,
     setCollection cs.2 uid (deleteIds cs.1 voice_ids_to_delete))

/-! ## Person listing and statistics -/

/-- One entry of `get_user_persons`' result. -/
structure PersonSummary where
  person_id : String
  person_name : String
  relationship : String
  audio_count : Nat
  created_at : String
deriving DecidableEq

/-- One step of the `get_user_persons` loop: skip self records; create the
person's entry on first sight (with `person_id` containing the current time)
and bump its `audio_count` on every matching record. -/
def personsFold (uid : String) (now : Int) (d : List PersonSummary)
    (r : VoiceRec) : List PersonSummary :=
  if r.is_user == "True" then d
  else if d.any (fun p => p.person_name == r.person_name) then
    d.map (fun p =>
      if p.person_name == r.person_name then
        { p with audio_count := p.audio_count + 1 }
      else p)
  else
    d ++ [{ person_id := uid ++ "_" ++ r.person_name ++ "_" ++ toString now
            person_name := r.person_name
            relationship := r.relationship
            audio_count := 1
            created_at := r.created_at }]

/-- `get_user_persons(user_id)` (the spec's `listPersons`): the non-self
records grouped by `person_name`, in first-seen order. -/
def get_user_persons (s : Store) (uid : String) (now : Int) :
    List PersonSummary :=
  (collectionOf s uid).foldl (personsFold uid now) []

/-- The global statistics triple of `get_user_stats()` (no tenant given). -/
structure GlobalStats where
  total_users : Nat
  total_persons : Nat
  total_audio_features : Nat
deriving DecidableEq

/-- `get_user_stats()` with no tenant: scan every known tenant, counting the
tenant, adding its record count to `total_audio_features`, and — when the
collection is nonempty — adding to `total_persons` either `1` (the tenant has
both a self record and a non-self record), or the number of distinct non-self
`person_name`s (only non-self records), or nothing (only self records). -/
def get_user_stats_global (s : Store) : GlobalStats :=
  s.foldl
    (fun acc p =>
      let count := p.2.length
      let persons :=
        if count > 0 then
          let has_user_voice := p.2.any (fun r => r.is_user == "True")
          let has_persons_voice := p.2.any (fun r => r.is_user == "False")
          if has_user_voice && has_persons_voice then 1
          else if has_persons_voice then
            (((p.2.filter (fun r => r.is_user == "False")).map
              (fun r => r.person_name)).dedup).length
          else 0
        else 0
      { total_users := acc.total_users + 1
        total_persons := acc.total_persons + persons
        total_audio_features := acc.total_audio_features + count })
    ⟨0, 0, 0⟩

/-! ## Helper lemmas about the store -/

theorem collectionOf_eq_nil_of_not_known (s : Store) (uid : String)
    (h : knownTenant s uid = false) : collectionOf s uid = [] := by
  induction s with
  | nil => rfl
  | cons p rest ih =>
    simp only [knownTenant, Bool.or_eq_false_iff, decide_eq_false_iff_not] at h
    simp [collectionOf, h.1, ih h.2]

theorem getUserCollection_fst (s : Store) (uid : String) :
    (getUserCollection s uid).1 = collectionOf s uid := by
  unfold getUserCollection
  by_cases h : knownTenant s uid
  · simp [h]
  · simp only [Bool.not_eq_true] at h
    simp [h, collectionOf_eq_nil_of_not_known s uid h]

theorem collectionOf_append_new (s : Store) (uid t : String) :
    collectionOf (s ++ [(uid, [])]) t = collectionOf s t := by
  induction s with
  | nil => by_cases h : uid = t <;> simp [collectionOf, h]
  | cons p rest ih => by_cases h : p.1 = t <;> simp [collectionOf, h, ih]

theorem getUserCollection_snd (s : Store) (uid t : String) :
    collectionOf (getUserCollection s uid).2 t = collectionOf s t := by
  unfold getUserCollection
  by_cases h : knownTenant s uid
  · simp [h]
  · simp [h, collectionOf_append_new]

theorem knownTenant_getUserCollection (s : Store) (uid : String) :
    knownTenant (getUserCollection s uid).2 uid = true := by
  unfold getUserCollection
  by_cases h : knownTenant s uid
  · simp [h]
  · induction s with
    | nil => simp [knownTenant]
    | cons p rest ih =>
      simp only [knownTenant, Bool.or_eq_true, decide_eq_true_eq] at h ⊢
      by_cases hp : p.1 = uid
      · exact absurd (Or.inl hp) h
      · simp only [h, if_false, List.cons_append]
        simp only [knownTenant, Bool.or_eq_true, decide_eq_true_eq]
        right
        have hrest : ¬ knownTenant rest uid = true := fun hr => h (Or.inr hr)
        have := ih hrest
        simpa [hrest, knownTenant] using this

theorem collectionOf_setCollection_self (s : Store) (uid : String)
    (recs : List VoiceRec) (h : knownTenant s uid = true) :
    collectionOf (setCollection s uid recs) uid = recs := by
  induction s with
  | nil => simp [knownTenant] at h
  | cons p rest ih =>
    by_cases hp : p.1 = uid
    · simp [setCollection, collectionOf, hp]
    · simp only [knownTenant, Bool.or_eq_true, decide_eq_true_eq, hp,
        false_or] at h
      simp [setCollection, collectionOf, hp, ih h]

theorem collectionOf_setCollection_ne (s : Store) (uid t : String)
    (recs : List VoiceRec) (h : t ≠ uid) :
    collectionOf (setCollection s uid recs) t = collectionOf s t := by
  induction s with
  | nil => rfl
  | cons p rest ih =>
    by_cases hp : p.1 = uid
    · simp [setCollection, collectionOf, hp, Ne.symm h, ih]
    · by_cases hpt : p.1 = t <;> simp [setCollection, collectionOf, hp, hpt, h, ih]

/-- The record `add_voice_feature` writes, as a function of its inputs. -/
def addedRecord (user_id person_name : String) (feature_vector : List ℚ)
    (relationship : String) (uuidHex : String) (now : Int) (nowIso : String) :
    VoiceRec :=
  { voice_id := user_id ++ "_" ++ person_name ++ "_" ++ uuidHex ++ "_" ++ toString now
    user_id := user_id
    person_name := person_name
    relationship := relationship
    is_user := pyBoolStr (["本人", "self", "me", "本人"].contains (pyLower relationship))
    created_at := nowIso
    created_timestamp := now * 1000
    embedding := feature_vector }

theorem collectionOf_add_self (s : Store) (uid pname : String) (v : List ℚ)
    (rel u8 : String) (now : Int) (iso : String) :
    collectionOf (add_voice_feature s uid pname v rel u8 now iso).2 uid
      = collectionOf s uid ++ [addedRecord uid pname v rel u8 now iso] := by
  unfold add_voice_feature addedRecord
  rw [collectionOf_setCollection_self _ _ _ (knownTenant_getUserCollection s uid),
    getUserCollection_fst]

theorem collectionOf_add_ne (s : Store) (uid pname : String) (v : List ℚ)
    (rel u8 : String) (now : Int) (iso : String) (t : String) (h : t ≠ uid) :
    collectionOf (add_voice_feature s uid pname v rel u8 now iso).2 t
      = collectionOf s t := by
  unfold add_voice_feature
  rw [collectionOf_setCollection_ne _ _ _ _ h, getUserCollection_snd]

/-! ## Helper lemmas about the stable sorts -/

theorem insertDescBy_perm (key : α → ℚ) (a : α) (l : List α) :
    List.Perm (insertDescBy key a l) (a :: l) := by
  induction l with
  | nil => rfl
  | cons x xs ih =>
    unfold insertDescBy
    by_cases h : key a < key x
    · simp only [h, if_true]
      exact ((ih.cons x).trans (List.Perm.swap a x xs))
    · simp [h]

theorem sortDescBy_perm (key : α → ℚ) (l : List α) :
    List.Perm (sortDescBy key l) l := by
  induction l with
  | nil => rfl
  | cons x xs ih =>
    unfold sortDescBy
    exact (insertDescBy_perm key x (sortDescBy key xs)).trans (ih.cons x)

theorem mem_insertDescBy (key : α → ℚ) (a b : α) (l : List α) :
    b ∈ insertDescBy key a l ↔ b = a ∨ b ∈ l := by
  rw [(insertDescBy_perm key a l).mem_iff, List.mem_cons]

theorem mem_sortDescBy (key : α → ℚ) (b : α) (l : List α) :
    b ∈ sortDescBy key l ↔ b ∈ l :=
  (sortDescBy_perm key l).mem_iff

theorem length_sortDescBy (key : α → ℚ) (l : List α) :
    (sortDescBy key l).length = l.length :=
  (sortDescBy_perm key l).length_eq

theorem pairwise_insertDescBy (key : α → ℚ) (a : α) (l : List α)
    (h : l.Pairwise (fun x y => key y ≤ key x)) :
    (insertDescBy key a l).Pairwise (fun x y => key y ≤ key x) := by
  induction l with
  | nil => simp [insertDescBy]
  | cons x xs ih =>
    rcases List.pairwise_cons.1 h with ⟨hx, hxs⟩
    unfold insertDescBy
    by_cases hc : key a < key x
    · simp only [hc, if_true]
      refine List.pairwise_cons.2 ⟨?_, ih hxs⟩
      intro y hy
      rcases (mem_insertDescBy key a y xs).1 hy with rfl | hmem
      · exact le_of_lt hc
      · exact hx y hmem
    · simp only [hc, if_false]
      refine List.pairwise_cons.2 ⟨?_, h⟩
      intro y hy
      rcases List.mem_cons.1 hy with rfl | hmem
      · exact not_lt.1 hc
      · exact le_trans (hx y hmem) (not_lt.1 hc)

theorem pairwise_sortDescBy (key : α → ℚ) (l : List α) :
    (sortDescBy key l).Pairwise (fun x y => key y ≤ key x) := by
  induction l with
  | nil => simp [sortDescBy]
  | cons x xs ih => exact pairwise_insertDescBy key x _ ih

theorem insertDescBy_append_right (key : α → ℚ) (a : α) (A B : List α)
    (hB : ∀ b ∈ B, key b < key a) :
    insertDescBy key a (A ++ B) = insertDescBy key a A ++ B := by
  induction A with
  | nil =>
    cases B with
    | nil => rfl
    | cons b bs =>
      have : ¬ key a < key b := not_lt.2 (le_of_lt (hB b (by simp)))
      simp [insertDescBy, this]
  | cons x A ih =>
    unfold insertDescBy
    by_cases h : key a < key x <;> simp [h, ih]

theorem insertDescBy_append_left (key : α → ℚ) (a : α) (A B : List α)
    (hA : ∀ x ∈ A, key a < key x) :
    insertDescBy key a (A ++ B) = A ++ insertDescBy key a B := by
  induction A with
  | nil => rfl
  | cons x A ih =>
    have hx : key a < key x := hA x (by simp)
    have hrest := ih (fun y hy => hA y (by simp [hy]))
    simp only [List.cons_append, insertDescBy, hx, if_true]
    simpa using hrest

theorem sortDescBy_filter_partition (key : α → ℚ) (c : ℚ) (l : List α) :
    sortDescBy key l
      = sortDescBy key (l.filter (fun x => decide (c ≤ key x)))
        ++ sortDescBy key (l.filter (fun x => !decide (c ≤ key x))) := by
  induction l with
  | nil => rfl
  | cons a l ih =>
    by_cases h : c ≤ key a
    · have h1 : (a :: l).filter (fun x => decide (c ≤ key x))
          = a :: l.filter (fun x => decide (c ≤ key x)) := by simp [h]
      have h2 : (a :: l).filter (fun x => !decide (c ≤ key x))
          = l.filter (fun x => !decide (c ≤ key x)) := by simp [h]
      rw [h1, h2]
      show insertDescBy key a (sortDescBy key l) = _
      rw [ih, insertDescBy_append_right]
      · rfl
      · intro b hb
        have := (mem_sortDescBy key b _).1 hb
        have hbp := List.of_mem_filter this
        simp only [Bool.not_eq_true', decide_eq_false_iff_not, not_le] at hbp
        exact lt_of_lt_of_le hbp h
    · have h1 : (a :: l).filter (fun x => decide (c ≤ key x))
          = l.filter (fun x => decide (c ≤ key x)) := by simp [h]
      have h2 : (a :: l).filter (fun x => !decide (c ≤ key x))
          = a :: l.filter (fun x => !decide (c ≤ key x)) := by simp [h]
      rw [h1, h2]
      show insertDescBy key a (sortDescBy key l) = _
      rw [ih, insertDescBy_append_left]
      · rfl
      · intro x hx
        have := (mem_sortDescBy key x _).1 hx
        have hxp := List.of_mem_filter this
        simp only [decide_eq_true_eq] at hxp
        exact lt_of_lt_of_le (not_le.1 h) hxp

theorem insertAscBy_perm (key : α → ℚ) (a : α) (l : List α) :
    List.Perm (insertAscBy key a l) (a :: l) := by
  induction l with
  | nil => rfl
  | cons x xs ih =>
    unfold insertAscBy
    by_cases h : key x < key a
    · simp only [h, if_true]
      exact ((ih.cons x).trans (List.Perm.swap a x xs))
    · simp [h]

theorem sortAscBy_perm (key : α → ℚ) (l : List α) :
    List.Perm (sortAscBy key l) l := by
  induction l with
  | nil => rfl
  | cons x xs ih =>
    unfold sortAscBy
    exact (insertAscBy_perm key x (sortAscBy key xs)).trans (ih.cons x)

theorem mem_sortAscBy (key : α → ℚ) (b : α) (l : List α) :
    b ∈ sortAscBy key l ↔ b ∈ l :=
  (sortAscBy_perm key l).mem_iff

/-! ## Helper lemmas about the search -/

/-- One collection's query batch formatted but not threshold-filtered. -/
def rawBatch (dist : List ℚ → List ℚ → ℚ) (recs : List VoiceRec)
    (q : List ℚ) (k : Nat) : List SearchMatch :=
  (queryCollection dist recs q k).map (fun rd => toMatch rd.1 rd.2)

/-- All candidates a `find_most_similar` call considers, before the
threshold filter.  Independent of the threshold. -/
def allCandidates (dist : List ℚ → List ℚ → ℚ) (s : Store)
    (queryFails : String → Bool) (q : List ℚ) (user_id : Option String)
    (k : Nat) : List SearchMatch :=
  match user_id with
  | some uid =>
    if uid = "" then
      (s.map (fun p =>
        if queryFails p.1 then [] else rawBatch dist (collectionOf s p.1) q k)).flatten
    else if queryFails uid then []
    else rawBatch dist (collectionOf s uid) q k
  | none =>
    (s.map (fun p =>
      if queryFails p.1 then [] else rawBatch dist (collectionOf s p.1) q k)).flatten

theorem filteredBatch_eq_filter (dist : List ℚ → List ℚ → ℚ)
    (recs : List VoiceRec) (q : List ℚ) (θ : ℚ) (k : Nat) :
    filteredBatch dist recs q θ k
      = (rawBatch dist recs q k).filter (fun m => decide (θ ≤ m.similarity)) := by
  unfold filteredBatch rawBatch
  induction queryCollection dist recs q k with
  | nil => rfl
  | cons rd l ih =>
    by_cases h : θ ≤ 1 - rd.2 / 2
    · have hsim : decide (θ ≤ (toMatch rd.1 rd.2).similarity) = true := by
        simpa [toMatch] using h
      simp [List.filterMap_cons, List.filter_cons, h, hsim, ih]
    · have hsim : decide (θ ≤ (toMatch rd.1 rd.2).similarity) = false := by
        simpa [toMatch] using h
      simp [List.filterMap_cons, List.filter_cons, h, hsim, ih]

theorem fanoutCandidates_eq_filter (dist : List ℚ → List ℚ → ℚ) (s : Store)
    (qf : String → Bool) (q : List ℚ) (θ : ℚ) (k : Nat) :
    fanoutCandidates dist s qf q θ k
      = (allCandidates dist s qf q none k).filter
          (fun m => decide (θ ≤ m.similarity)) := by
  unfold fanoutCandidates allCandidates
  generalize s.map (fun p => (qf p.1, collectionOf s p.1)) = ps
  rw [show
      (s.map (fun p =>
        if qf p.1 then [] else filteredBatch dist (collectionOf s p.1) q θ k))
      = (s.map (fun p =>
        if qf p.1 then [] else rawBatch dist (collectionOf s p.1) q k)).map
          (fun l => l.filter (fun m => decide (θ ≤ m.similarity)))
    from by
      rw [List.map_map]
      refine List.map_congr_left (fun p _ => ?_)
      by_cases h : qf p.1 <;>
        simp [h, Function.comp, filteredBatch_eq_filter]]
  rw [List.filter_flatten]

/-- `rankTruncate` keeps only members of its input. -/
theorem mem_rankTruncate (l : List SearchMatch) (k : Nat) (m : SearchMatch)
    (h : m ∈ rankTruncate l k) : m ∈ l := by
  unfold rankTruncate at h
  exact (mem_sortDescBy _ m l).1 (List.mem_of_mem_take h)

theorem length_rankTruncate (l : List SearchMatch) (k : Nat) :
    (rankTruncate l k).length = min k l.length := by
  unfold rankTruncate
  rw [List.length_take, length_sortDescBy]

theorem pairwise_rankTruncate (l : List SearchMatch) (k : Nat) :
    (rankTruncate l k).Pairwise (fun a b => b.similarity ≤ a.similarity) :=
  (pairwise_sortDescBy (fun m => m.similarity) l).sublist (List.take_sublist _ _)

/-- Every element of a query batch is a stored record with its distance. -/
theorem mem_queryCollection (dist : List ℚ → List ℚ → ℚ)
    (recs : List VoiceRec) (q : List ℚ) (n : Nat) (rd : VoiceRec × ℚ)
    (h : rd ∈ queryCollection dist recs q n) :
    ∃ r ∈ recs, rd = (r, dist q r.embedding) := by
  unfold queryCollection at h
  have h1 := List.mem_of_mem_take h
  have h2 := (mem_sortAscBy _ rd _).1 h1
  rcases List.mem_map.1 h2 with ⟨r, hr, hrd⟩
  exact ⟨r, hr, hrd.symm⟩

/-- Every formatted batch entry comes from a stored record. -/
theorem mem_rawBatch (dist : List ℚ → List ℚ → ℚ) (recs : List VoiceRec)
    (q : List ℚ) (k : Nat) (m : SearchMatch)
    (h : m ∈ rawBatch dist recs q k) :
    ∃ r ∈ recs, m = toMatch r (dist q r.embedding) := by
  unfold rawBatch at h
  rcases List.mem_map.1 h with ⟨rd, hrd, hm⟩
  rcases mem_queryCollection dist recs q k rd hrd with ⟨r, hr, heq⟩
  exact ⟨r, hr, by rw [← hm, heq]⟩

/-- Raising the threshold shrinks the ranked-and-truncated result: every
member at the higher threshold survives at the lower one. -/
theorem rankTruncate_filter_mono (L : List SearchMatch) (θ1 θ2 : ℚ)
    (h : θ1 ≤ θ2) (k : Nat) (m : SearchMatch)
    (hm : m ∈ rankTruncate (L.filter (fun x => decide (θ2 ≤ x.similarity))) k) :
    m ∈ rankTruncate (L.filter (fun x => decide (θ1 ≤ x.similarity))) k := by
  unfold rankTruncate at hm ⊢
  have hpart := sortDescBy_filter_partition (fun x : SearchMatch => x.similarity)
      θ2 (L.filter (fun x => decide (θ1 ≤ x.similarity)))
  have hff : (L.filter (fun x => decide (θ1 ≤ x.similarity))).filter
        (fun x => decide (θ2 ≤ x.similarity))
      = L.filter (fun x => decide (θ2 ≤ x.similarity)) := by
    rw [List.filter_filter]
    refine List.filter_congr (fun a _ => ?_)
    by_cases h2 : θ2 ≤ a.similarity
    · simp [h2, le_trans h h2]
    · simp [h2]
  rw [hff] at hpart
  rw [hpart, List.take_append_eq_append_take]
  exact List.mem_append_left _ hm

/-- `find_most_similar` is the ranked-and-truncated threshold filter of the
threshold-independent candidate list. -/
theorem find_most_similar_eq (dist : List ℚ → List ℚ → ℚ) (s : Store)
    (qf : String → Bool) (q : List ℚ) (user_id : Option String) (θ : ℚ)
    (k : Nat) :
    find_most_similar dist s qf q user_id θ k
      = rankTruncate
          ((allCandidates dist s qf q user_id k).filter
            (fun m => decide (θ ≤ m.similarity))) k := by
  match user_id with
  | none =>
    show rankTruncate (fanoutCandidates dist s qf q θ k) k = _
    rw [fanoutCandidates_eq_filter]
  | some uid =>
    by_cases h0 : uid = ""
    · show find_most_similar dist s qf q (some uid) θ k = _
      unfold find_most_similar allCandidates
      simp only [h0, if_true]
      rw [fanoutCandidates_eq_filter]
      rfl
    · by_cases hf : qf uid
      · show find_most_similar dist s qf q (some uid) θ k = _
        unfold find_most_similar allCandidates
        simp [h0, hf, rankTruncate, sortDescBy]
      · show find_most_similar dist s qf q (some uid) θ k = _
        unfold find_most_similar allCandidates
        simp only [h0, hf, if_false]
        rw [filteredBatch_eq_filter]
        simp

/-! ## Helper lemmas about deletion and person listing -/

theorem deleteIds_all (recs : List VoiceRec) :
    deleteIds recs (recs.map (fun r => r.voice_id)) = [] := by
  unfold deleteIds
  rw [List.filter_eq_nil_iff]
  intro r hr
  simp [List.mem_map]
  exact ⟨r, hr, rfl⟩

theorem deleteIds_filter_of_nodup (recs : List VoiceRec) (p : VoiceRec → Bool)
    (h : (recs.map (fun r => r.voice_id)).Nodup) :
    deleteIds recs ((recs.filter p).map (fun r => r.voice_id))
      = recs.filter (fun r => !(p r)) := by
  unfold deleteIds
  refine List.filter_congr (fun r hr => ?_)
  by_cases hp : p r = true
  · have hmem : r.voice_id ∈ (recs.filter p).map (fun r => r.voice_id) :=
      List.mem_map_of_mem _ (List.mem_filter.2 ⟨hr, hp⟩)
    simp [hp, hmem]
  · have hmem : r.voice_id ∉ (recs.filter p).map (fun r => r.voice_id) := by
      intro hc
      rcases List.mem_map.1 hc with ⟨r', hr', hid⟩
      rcases List.mem_filter.1 hr' with ⟨hr'mem, hp'⟩
      have : r' = r := List.inj_on_of_nodup_map h hr'mem hr hid
      exact hp (this ▸ hp')
    simp [hp, hmem]

theorem mem_names_personsFold (uid : String) (now : Int) (l : List VoiceRec)
    (d : List PersonSummary) (name : String) :
    (name ∈ (l.foldl (personsFold uid now) d).map (fun p => p.person_name))
      ↔ name ∈ d.map (fun p => p.person_name)
        ∨ ∃ r ∈ l, ¬ r.is_user = "True" ∧ r.person_name = name := by
  induction l generalizing d with
  | nil => simp
  | cons r l ih =>
    rw [List.foldl_cons, ih]
    have hcons : (∃ x ∈ r :: l, ¬ x.is_user = "True" ∧ x.person_name = name)
        ↔ (¬ r.is_user = "True" ∧ r.person_name = name)
          ∨ ∃ x ∈ l, ¬ x.is_user = "True" ∧ x.person_name = name := by
      simp [List.mem_cons, or_and_right, exists_or]
    rw [hcons]
    by_cases hs : r.is_user = "True"
    · have hb : (r.is_user == "True") = true := by simpa using hs
      unfold personsFold
      rw [if_pos hb]
      tauto
    · have hb : (r.is_user == "True") = false := by simpa using hs
      unfold personsFold
      rw [if_neg (by simp [hb])]
      by_cases he : d.any (fun p => p.person_name == r.person_name)
      · rw [if_pos he]
        have hnames : (d.map (fun p =>
              if p.person_name == r.person_name then
                { p with audio_count := p.audio_count + 1 }
              else p)).map (fun p => p.person_name)
            = d.map (fun p => p.person_name) := by
          rw [List.map_map]
          refine List.map_congr_left (fun p _ => ?_)
          by_cases hm : p.person_name = r.person_name <;> simp [hm]
        rw [hnames]
        have hrd : r.person_name ∈ d.map (fun p => p.person_name) := by
          rcases List.any_eq_true.1 he with ⟨p, hp, hpb⟩
          have : p.person_name = r.person_name := by simpa using hpb
          exact this ▸ List.mem_map_of_mem _ hp
        constructor
        · tauto
        · rintro (hd | ⟨_, rfl⟩ | hl)
          · exact Or.inl hd
          · exact Or.inl hrd
          · exact Or.inr hl
      · rw [if_neg he]
        rw [List.map_append]
        simp only [List.map_cons, List.map_nil, List.mem_append,
          List.mem_singleton]
        constructor
        · rintro ((hd | hr) | hl)
          · exact Or.inl hd
          · exact Or.inr (Or.inl ⟨hs, hr.symm⟩)
          · exact Or.inr (Or.inr hl)
        · rintro (hd | ⟨_, rfl⟩ | hl)
          · exact Or.inl (Or.inl hd)
          · exact Or.inl (Or.inr rfl)
          · exact Or.inr hl

/-- Membership in `get_user_persons` is exactly having a non-self record of
that name. -/
theorem mem_names_get_user_persons (s : Store) (uid : String) (now : Int)
    (name : String) :
    (name ∈ (get_user_persons s uid now).map (fun p => p.person_name))
      ↔ ∃ r ∈ collectionOf s uid, ¬ r.is_user = "True" ∧ r.person_name = name := by
  unfold get_user_persons
  rw [mem_names_personsFold]
  simp

/-! ## Helper lemmas about fan-out degradation -/

theorem collectionOf_filter_not_failing (s : Store) (qf : String → Bool)
    (t : String) (h : qf t = false) :
    collectionOf (s.filter (fun p => !(qf p.1))) t = collectionOf s t := by
  induction s with
  | nil => rfl
  | cons p rest ih =>
    by_cases hp : p.1 = t
    · have hq : qf p.1 = false := by rw [hp]; exact h
      simp [List.filter_cons, hq, collectionOf, hp, h]
    · by_cases hq : qf p.1 <;>
        simp [List.filter_cons, hq, collectionOf, hp, ih]

theorem flatten_map_skip_empty {β : Type} (l : Store) (g : String → Bool)
    (F : String × List VoiceRec → List β)
    (hF : ∀ p ∈ l, g p.1 = true → F p = []) :
    (l.map F).flatten = ((l.filter (fun p => !(g p.1))).map F).flatten := by
  induction l with
  | nil => rfl
  | cons p rest ih =>
    by_cases hq : g p.1
    · simp only [List.map_cons, List.flatten_cons, hF p (by simp) hq,
        List.nil_append, List.filter_cons, hq, Bool.not_true, if_neg]
      simpa using ih (fun p hp => hF p (by simp [hp]))
    · simp only [List.map_cons, List.flatten_cons, List.filter_cons,
        Bool.not_eq_true] at *
      simp only [hq, Bool.not_false, if_pos, List.map_cons, List.flatten_cons]
      rw [ih (fun p hp => hF p (by simp [hp]))]

/-- Fan-out search over a store with failing tenants equals fan-out search
over the store restricted to the non-failing tenants, with no failures. -/
theorem fanoutCandidates_degrade (dist : List ℚ → List ℚ → ℚ) (s : Store)
    (qf : String → Bool) (q : List ℚ) (θ : ℚ) (k : Nat) :
    fanoutCandidates dist s qf q θ k
      = fanoutCandidates dist (s.filter (fun p => !(qf p.1)))
          (fun _ => false) q θ k := by
  unfold fanoutCandidates
  rw [flatten_map_skip_empty s qf _ (fun p _ hq => by simp [hq])]
  congr 1
  refine List.map_congr_left (fun p hp => ?_)
  have hq : qf p.1 = false := by
    have := List.of_mem_filter hp
    simpa using this
  simp only [hq, Bool.false_eq_true, if_false, if_neg]
  rw [collectionOf_filter_not_failing s qf p.1 hq]

/-! ## Helper lemmas about the global statistics -/

/-- The per-tenant contribution to `total_persons` as claim C9 words it: a
tenant with both at least one self record and at least one non-self record
contributes exactly 1; a tenant with only non-self records contributes the
number of distinct `person_name` values among its non-self records; a tenant
with only self records (or none) contributes 0. -/
def claimPersonUnits (recs : List VoiceRec) : Nat :=
  if (∃ r ∈ recs, r.is_user = "True") ∧ (∃ r ∈ recs, r.is_user = "False") then 1
  else if ∃ r ∈ recs, r.is_user = "False" then
    ((recs.filter (fun r => decide (r.is_user = "False"))).map
      (fun r => r.person_name)).toFinset.card
  else 0

theorem tenantUnits_eq (recs : List VoiceRec) :
    (if recs.length > 0 then
      if (recs.any fun r => r.is_user == "True")
          && (recs.any fun r => r.is_user == "False") then 1
      else if recs.any (fun r => r.is_user == "False") then
        (((recs.filter (fun r => r.is_user == "False")).map
          (fun r => r.person_name)).dedup).length
      else 0
    else 0) = claimPersonUnits recs := by
  have hT : ((recs.any fun r => r.is_user == "True") = true)
      ↔ ∃ r ∈ recs, r.is_user = "True" := by
    rw [List.any_eq_true]
    simp
  have hF : ((recs.any fun r => r.is_user == "False") = true)
      ↔ ∃ r ∈ recs, r.is_user = "False" := by
    rw [List.any_eq_true]
    simp
  have hfilter : recs.filter (fun r => r.is_user == "False")
      = recs.filter (fun r => decide (r.is_user = "False")) := by
    refine List.filter_congr (fun r _ => ?_)
    by_cases h : r.is_user = "False" <;> simp [h]
  cases recs with
  | nil => simp [claimPersonUnits]
  | cons r recs =>
    unfold claimPersonUnits
    rw [if_pos (by simp)]
    by_cases h1 : (∃ x ∈ r :: recs, x.is_user = "True")
        ∧ ∃ x ∈ r :: recs, x.is_user = "False"
    · rw [if_pos h1]
      rw [if_pos (by rw [Bool.and_eq_true, hT, hF]; exact h1)]
    · rw [if_neg h1]
      rw [if_neg (by rw [Bool.and_eq_true, hT, hF]; exact h1)]
      by_cases h2 : ∃ x ∈ r :: recs, x.is_user = "False"
      · rw [if_pos h2, if_pos (hF.2 h2), hfilter, List.card_toFinset]
      · rw [if_neg h2, if_neg (by rw [hF]; exact h2)]

/-- The global-stats fold, accumulator generalized. -/
theorem get_user_stats_global_fold (s : Store) (a b c : Nat) :
    s.foldl
      (fun acc p =>
        let count := p.2.length
        let persons :=
          if count > 0 then
            let has_user_voice := p.2.any (fun r => r.is_user == "True")
            let has_persons_voice := p.2.any (fun r => r.is_user == "False")
            if has_user_voice && has_persons_voice then 1
            else if has_persons_voice then
              (((p.2.filter (fun r => r.is_user == "False")).map
                (fun r => r.person_name)).dedup).length
            else 0
          else 0
        (⟨acc.total_users + 1, acc.total_persons + persons,
          acc.total_audio_features + count⟩ : GlobalStats))
      ⟨a, b, c⟩
    = ⟨a + s.length, b + (s.map (fun p => claimPersonUnits p.2)).sum,
       c + (s.map (fun p => p.2.length)).sum⟩ := by
  induction s generalizing a b c with
  | nil => simp
  | cons p rest ih =>
    rw [List.foldl_cons, ih]
    simp only [List.map_cons, List.sum_cons, List.length_cons,
      ← tenantUnits_eq p.2, GlobalStats.mk.injEq]
    exact ⟨by omega, by omega, by omega⟩

/-! ## Run lemmas for deletion -/

theorem delete_all_run (s : Store) (uid : String) :
    (delete_user_all_voices s uid false).1 = (collectionOf s uid).length
    ∧ collectionOf (delete_user_all_voices s uid false).2 uid = [] := by
  have hfst : (getUserCollection s uid).1 = collectionOf s uid :=
    getUserCollection_fst s uid
  by_cases h : collectionOf s uid = []
  · have hisE : ((getUserCollection s uid).1.map
        (fun r => r.voice_id)).isEmpty = true := by
      rw [hfst, h]; rfl
    unfold delete_user_all_voices
    rw [if_pos hisE]
    exact ⟨by rw [h]; rfl, by rw [getUserCollection_snd, h]⟩
  · have hisE : ((getUserCollection s uid).1.map
        (fun r => r.voice_id)).isEmpty = false := by
      rw [hfst]
      cases hcol : collectionOf s uid with
      | nil => exact absurd hcol h
      | cons a l => rfl
    unfold delete_user_all_voices
    rw [if_neg (by rw [hisE]; exact Bool.false_ne_true)]
    rw [if_neg Bool.false_ne_true]
    constructor
    · rw [List.length_map, hfst]
    · rw [hfst, deleteIds_all,
        collectionOf_setCollection_self _ _ _ (knownTenant_getUserCollection s uid)]

/-! ## Concrete data used in the evaluations -/

/-- Abstract adapter distance used in concrete runs: the stored embedding's
head entry is its distance to every query vector. -/
def distHead : List ℚ → List ℚ → ℚ := fun _ e => e.headD 1

/-- Abstract adapter distance that is identically zero (similarity 1). -/
def distZero : List ℚ → List ℚ → ℚ := fun _ _ => 0

/-- No adapter call fails. -/
def noFail : String → Bool := fun _ => false

/-- Two non-self records of the same person "mom" under tenant "u1",
written by two `add_voice_feature` calls with uuid fragments `aaaaaaaa`
and `bbbbbbbb`. -/
def momStore : Store :=
  (add_voice_feature
    (add_voice_feature [] "u1" "mom" [1] "friend" "aaaaaaaa" 100 "t1").2
    "u1" "mom" [2] "friend" "bbbbbbbb" 101 "t2").2

/-- One record of the empty-string tenant and one of tenant "u1". -/
def emptyTenantStore : Store :=
  (add_voice_feature
    (add_voice_feature [] "" "pat" [0] "friend" "dddddddd" 100 "t0").2
    "u1" "alice" [0] "friend" "eeeeeeee" 101 "t1").2

/-- Three tenants with two above-threshold records each (distances 1/10 …
6/10 under `distHead`). -/
def fanStore : Store :=
  let s1 := (add_voice_feature [] "t1" "p1" [1/10] "friend" "a1a1a1a1" 100 "s").2
  let s2 := (add_voice_feature s1 "t1" "p2" [2/10] "friend" "a2a2a2a2" 101 "s").2
  let s3 := (add_voice_feature s2 "t2" "p3" [3/10] "friend" "a3a3a3a3" 102 "s").2
  let s4 := (add_voice_feature s3 "t2" "p4" [4/10] "friend" "a4a4a4a4" 103 "s").2
  let s5 := (add_voice_feature s4 "t3" "p5" [5/10] "friend" "a5a5a5a5" 104 "s").2
  (add_voice_feature s5 "t3" "p6" [6/10] "friend" "a6a6a6a6" 105 "s").2

/-- Tenant "u1" with a self record (Alice), and non-self records Bob and
Carol. -/
def u1Store : Store :=
  let s1 := (add_voice_feature [] "u1" "alice" [1] "本人" "a0a0a0a0" 100 "t").2
  let s2 := (add_voice_feature s1 "u1" "Bob" [2] "friend" "b0b0b0b0" 101 "t").2
  (add_voice_feature s2 "u1" "Carol" [3] "friend" "c0c0c0c0" 102 "t").2

/-- One record under tenant "u1". -/
def bobStore : Store :=
  (add_voice_feature [] "u1" "bob" [1] "friend" "ffffffff" 100 "t").2

/-- Two tenants "a" and "b" with one record each. -/
def abStore : Store :=
  let s1 := (add_voice_feature [] "a" "pa" [0] "friend" "aaaa0000" 100 "t").2
  (add_voice_feature s1 "b" "pb" [0] "friend" "bbbb0000" 101 "t").2

/-- The adapter query for tenant "a" raises; all other calls succeed. -/
def failA : String → Bool := fun t => t == "a"

/-! ## The claims -/

/-- C1: the spec claims `getAllGrouped` groups non-self records with equal
`person_name` under a single group key.  The code instead keys each non-self
record by `voice_id.split('_')[2]` — for a tenant id and person name without
underscores this is the record's own uuid fragment — so two records of the
same person "mom" land under the two distinct keys `aaaaaaaa_mom` and
`bbbbbbbb_mom`, one embedding each, contradicting the function's own
docstring (`{"user": [...], "妈妈": [v1, v2], ...}`). -/
theorem claim1_grouping_eval :
    get_user_all_features momStore "u1"
      = [("aaaaaaaa_mom", [[1]]), ("bbbbbbbb_mom", [[2]])]
    ∧ (collectionOf momStore "u1").map (fun r => r.person_name)
      = ["mom", "mom"] := by
  with_unfolding_all decide

/-- C3: the record stored by `add` has `is_self` (stored as the string flag
`is_user`) true exactly when the lowercased relationship is one of "self",
"me" or "本人", for every tenant, person name and embedding. -/
theorem claim3_self_derivation (s : Store) (uid pname : String) (v : List ℚ)
    (rel u8 : String) (now : Int) (iso : String) :
    ∃ r : VoiceRec,
      collectionOf (add_voice_feature s uid pname v rel u8 now iso).2 uid
        = collectionOf s uid ++ [r]
      ∧ (r.is_user = "True" ↔
          (pyLower rel = "self" ∨ pyLower rel = "me" ∨ pyLower rel = "本人"))
      ∧ (r.is_user = "True" ∨ r.is_user = "False")
      ∧ r.person_name = pname ∧ r.relationship = rel ∧ r.embedding = v := by
  refine ⟨addedRecord uid pname v rel u8 now iso,
    collectionOf_add_self s uid pname v rel u8 now iso, ?_, ?_, rfl, rfl, rfl⟩
  · show pyBoolStr (["本人", "self", "me", "本人"].contains (pyLower rel)) = "True" ↔ _
    by_cases h : pyLower rel ∈ (["本人", "self", "me", "本人"] : List String)
    · have hb : (["本人", "self", "me", "本人"].contains (pyLower rel)) = true := by
        simpa using h
      rw [hb]
      simp only [pyBoolStr, if_true, true_iff]
      simp only [List.mem_cons, List.not_mem_nil, or_false] at h
      tauto
    · have hb : (["本人", "self", "me", "本人"].contains (pyLower rel)) = false := by
        simpa using h
      rw [hb]
      simp only [pyBoolStr, if_false]
      constructor
      · intro hc
        exact absurd hc (by decide)
      · intro hc
        exact absurd (by simp only [List.mem_cons]; tauto) h
  · show pyBoolStr (["本人", "self", "me", "本人"].contains (pyLower rel)) = "True"
        ∨ pyBoolStr (["本人", "self", "me", "本人"].contains (pyLower rel)) = "False"
    cases (["本人", "self", "me", "本人"].contains (pyLower rel)) <;>
      simp [pyBoolStr]

/-- C5 (amended): when the adapter's batch delete raises, both deletion
operations catch the exception and return 0 with every tenant's records
unchanged — the failure is reported as 0, which is NOT distinguishable from
a successful deletion of zero records (the claim's distinguishability is
refuted by the counterexample). -/
theorem claim5_amended (s : Store) (uid pname : String) :
    ((delete_user_all_voices s uid true).1 = 0
      ∧ ∀ t, collectionOf (delete_user_all_voices s uid true).2 t
          = collectionOf s t)
    ∧ ((delete_user_person_voices s uid pname true).1 = 0
      ∧ ∀ t, collectionOf (delete_user_person_voices s uid pname true).2 t
          = collectionOf s t) := by
  constructor
  · unfold delete_user_all_voices
    by_cases h : ((getUserCollection s uid).1.map (fun r => r.voice_id)).isEmpty <;>
      simp [h, getUserCollection_snd]
  · unfold delete_user_person_voices
    by_cases h : (((getUserCollection s uid).1.filter
        (fun r => r.person_name == pname && r.is_user == "False")).map
          (fun r => r.voice_id)).isEmpty <;>
      simp [h, getUserCollection_snd]

/-- C5 counterexample: a failing batch delete over a tenant holding one
record returns 0 — exactly the value a successful `deleteAllForTenant`
returns for a tenant with zero records — and leaves the record stored, so
the failure is not reported distinguishably to the caller. -/
theorem claim5_counterexample :
    (delete_user_all_voices bobStore "u1" true).1 = 0
    ∧ (delete_user_all_voices ([] : Store) "u1" false).1 = 0
    ∧ (collectionOf bobStore "u1").length = 1
    ∧ (collectionOf (delete_user_all_voices bobStore "u1" true).2 "u1").length
      = 1 := by
  with_unfolding_all decide

/-- C8: `deleteAllForTenant` run twice returns the tenant's record count and
then 0; a tenant with no collection or records yields count 0 (the first
conjunct with an empty collection), not an error. -/
theorem claim8_idempotent_delete (s : Store) (uid : String) :
    (delete_user_all_voices s uid false).1 = (collectionOf s uid).length
    ∧ (delete_user_all_voices
        (delete_user_all_voices s uid false).2 uid false).1 = 0 := by
  refine ⟨(delete_all_run s uid).1, ?_⟩
  rw [(delete_all_run (delete_user_all_voices s uid false).2 uid).1,
    (delete_all_run s uid).2]
  rfl

/-- C9: the global statistics count every tenant, sum all record counts into
`total_audio_features`, and add per tenant to `total_persons` exactly 1 when
the tenant has both self and non-self records, the number of distinct
non-self `person_name`s when it has only non-self records, and 0 when it has
only self records or none. -/
theorem claim9_global_stats (s : Store) :
    get_user_stats_global s
      = ⟨s.length, (s.map (fun p => claimPersonUnits p.2)).sum,
         (s.map (fun p => p.2.length)).sum⟩ := by
  unfold get_user_stats_global
  have h := get_user_stats_global_fold s 0 0 0
  simpa using h

/-- C2 counterexample: the claim quantifies over every pair of distinct
tenants, but the empty string is a tenant (it can hold records) for which
`find_most_similar(user_id="")` falls into the fan-out branch by Python
truthiness and returns other tenants' records: with tenants "" and "u1",
searching with `user_id = T2 = ""` returns the record added under
`T1 = "u1"`. -/
theorem claim2_counterexample :
    ("u1" : String) ≠ ""
    ∧ (find_most_similar distZero emptyTenantStore noFail [0] (some "") 0
        10).map (fun m => m.user_id) = ["", "u1"] := by
  with_unfolding_all decide

/-- C2 (amended): for distinct tenants T1 ≠ T2 with T2 nonempty (an
empty-string T2 is routed to fan-out search by Python truthiness), a record
added under T1 changes neither the tenant-scoped search results for T2 nor
`getAllGrouped(T2)`, and every search result for T2 comes from a record of
T2's own collection. -/
theorem claim2_amended (dist : List ℚ → List ℚ → ℚ) (qf : String → Bool)
    (s : Store) (T1 T2 pname rel u8 iso : String) (v q : List ℚ) (now : Int)
    (θ : ℚ) (k : Nat) (h1 : T1 ≠ T2) (h2 : T2 ≠ "") :
    find_most_similar dist (add_voice_feature s T1 pname v rel u8 now iso).2
        qf q (some T2) θ k
      = find_most_similar dist s qf q (some T2) θ k
    ∧ get_user_all_features (add_voice_feature s T1 pname v rel u8 now iso).2 T2
      = get_user_all_features s T2
    ∧ ∀ m ∈ find_most_similar dist s qf q (some T2) θ k,
        ∃ r ∈ collectionOf s T2,
          m.voice_id = r.voice_id ∧ m.user_id = r.user_id := by
  have hcol : collectionOf (add_voice_feature s T1 pname v rel u8 now iso).2 T2
      = collectionOf s T2 :=
    collectionOf_add_ne s T1 pname v rel u8 now iso T2 (Ne.symm h1)
  have hbranch : ∀ (s' : Store),
      find_most_similar dist s' qf q (some T2) θ k
        = if T2 = "" then
            rankTruncate (fanoutCandidates dist s' qf q θ k) k
          else if qf T2 then []
          else rankTruncate
            (filteredBatch dist (collectionOf s' T2) q θ k) k :=
    fun s' => rfl
  refine ⟨?_, ?_, ?_⟩
  · rw [hbranch, hbranch, if_neg h2, if_neg h2, hcol]
  · unfold get_user_all_features
    rw [hcol]
  · intro m hm
    rw [hbranch, if_neg h2] at hm
    by_cases hf : qf T2
    · rw [if_pos hf] at hm
      exact absurd hm (List.not_mem_nil m)
    · rw [if_neg hf] at hm
      have hfb := mem_rankTruncate _ _ m hm
      rw [filteredBatch_eq_filter] at hfb
      have hraw := (List.mem_filter.1 hfb).1
      rcases mem_rawBatch dist (collectionOf s T2) q k m hraw with ⟨r, hr, rfl⟩
      exact ⟨r, hr, rfl, rfl⟩

/-- C2 amended witness: concrete instantiation with T1 = "u1", T2 = "u2". -/
theorem claim2_amended_witness :
    ("u1" : String) ≠ "u2" ∧ ("u2" : String) ≠ ""
    ∧ (find_most_similar distZero
          (add_voice_feature [] "u1" "alice" [0] "friend" "eeeeeeee" 101
            "t1").2 noFail [0] (some "u2") 0 10
        = find_most_similar distZero [] noFail [0] (some "u2") 0 10
      ∧ get_user_all_features
          (add_voice_feature [] "u1" "alice" [0] "friend" "eeeeeeee" 101
            "t1").2 "u2"
        = get_user_all_features [] "u2"
      ∧ ∀ m ∈ find_most_similar distZero [] noFail [0] (some "u2") 0 10,
          ∃ r ∈ collectionOf [] "u2",
            m.voice_id = r.voice_id ∧ m.user_id = r.user_id) :=
  ⟨by decide, by decide,
   claim2_amended distZero noFail [] "u1" "u2" "alice" "friend" "eeeeeeee"
     "t1" [0] [0] 101 0 10 (by decide) (by decide)⟩

/-- C4: fan-out search (no tenant given) returns, whenever the pooled
above-threshold candidates from all tenants number at least `top_k`, exactly
`top_k` results, sorted descending by similarity, each drawn from the pooled
candidate list (which queries every known tenant for up to `top_k`
candidates and keeps the threshold survivors of each batch). -/
theorem claim4_fanout_ranking (dist : List ℚ → List ℚ → ℚ) (s : Store)
    (qf : String → Bool) (q : List ℚ) (θ : ℚ) (k : Nat)
    (h : k ≤ (fanoutCandidates dist s qf q θ k).length) :
    (find_most_similar dist s qf q none θ k).length = k
    ∧ (find_most_similar dist s qf q none θ k).Pairwise
        (fun a b => b.similarity ≤ a.similarity)
    ∧ ∀ m ∈ find_most_similar dist s qf q none θ k,
        m ∈ fanoutCandidates dist s qf q θ k := by
  have hdef : find_most_similar dist s qf q none θ k
      = rankTruncate (fanoutCandidates dist s qf q θ k) k := rfl
  rw [hdef]
  refine ⟨?_, pairwise_rankTruncate _ _, fun m hm => mem_rankTruncate _ _ m hm⟩
  rw [length_rankTruncate]
  omega

/-- C4 witness: three tenants with two above-threshold candidates each and
`top_k = 3`. -/
theorem claim4_fanout_ranking_witness :
    3 ≤ (fanoutCandidates distHead fanStore noFail [0] (1/2) 3).length
    ∧ ((find_most_similar distHead fanStore noFail [0] none (1/2) 3).length = 3
      ∧ (find_most_similar distHead fanStore noFail [0] none (1/2) 3).Pairwise
          (fun a b => b.similarity ≤ a.similarity)
      ∧ ∀ m ∈ find_most_similar distHead fanStore noFail [0] none (1/2) 3,
          m ∈ fanoutCandidates distHead fanStore noFail [0] (1/2) 3) :=
  ⟨by with_unfolding_all decide,
   claim4_fanout_ranking distHead fanStore noFail [0] (1/2) 3
     (by with_unfolding_all decide)⟩

/-- C6: `deleteByPerson` deletes exactly the tenant's non-self records whose
`person_name` matches, returns their count, leaves every other record (self
records and other persons, and all other tenants) unchanged, and a
subsequent `listPersons` no longer contains the deleted person but still
contains every other person.  The hypotheses hold for every store reachable
through `add`: record ids are distinct and the stored self flag is the
string encoding of a boolean. -/
theorem claim6_delete_by_person (s : Store) (uid pname : String) (now : Int)
    (h : ((collectionOf s uid).map (fun r => r.voice_id)).Nodup)
    (hw : ∀ r ∈ collectionOf s uid,
      r.is_user = "True" ∨ r.is_user = "False") :
    (delete_user_person_voices s uid pname false).1
      = ((collectionOf s uid).filter
          (fun r => r.person_name == pname && r.is_user == "False")).length
    ∧ collectionOf (delete_user_person_voices s uid pname false).2 uid
      = (collectionOf s uid).filter
          (fun r => !(r.person_name == pname && r.is_user == "False"))
    ∧ (∀ t, t ≠ uid →
        collectionOf (delete_user_person_voices s uid pname false).2 t
          = collectionOf s t)
    ∧ pname ∉ (get_user_persons
        (delete_user_person_voices s uid pname false).2 uid now).map
          (fun p => p.person_name)
    ∧ ∀ name, name ≠ pname →
        (name ∈ (get_user_persons
            (delete_user_person_voices s uid pname false).2 uid now).map
              (fun p => p.person_name)
          ↔ name ∈ (get_user_persons s uid now).map
              (fun p => p.person_name)) := by
  have hfst : (getUserCollection s uid).1 = collectionOf s uid :=
    getUserCollection_fst s uid
  have key : (delete_user_person_voices s uid pname false).1
        = ((collectionOf s uid).filter
            (fun r => r.person_name == pname && r.is_user == "False")).length
      ∧ collectionOf (delete_user_person_voices s uid pname false).2 uid
        = (collectionOf s uid).filter
            (fun r => !(r.person_name == pname && r.is_user == "False"))
      ∧ ∀ t, t ≠ uid →
          collectionOf (delete_user_person_voices s uid pname false).2 t
            = collectionOf s t := by
    unfold delete_user_person_voices
    by_cases hE : (((getUserCollection s uid).1.filter
        (fun r => r.person_name == pname && r.is_user == "False")).map
          (fun r => r.voice_id)).isEmpty
    · rw [if_pos hE]
      have hnil : (collectionOf s uid).filter
          (fun r => r.person_name == pname && r.is_user == "False") = [] := by
        rw [← hfst]
        have := List.isEmpty_iff.1 hE
        exact List.map_eq_nil_iff.1 this
      refine ⟨by rw [hnil]; rfl, ?_, fun t _ => getUserCollection_snd s uid t⟩
      rw [getUserCollection_snd]
      rw [List.filter_eq_self.2 ?_]
      intro r hr
      by_contra hc
      have : r ∈ (collectionOf s uid).filter
          (fun r => r.person_name == pname && r.is_user == "False") :=
        List.mem_filter.2 ⟨hr, by revert hc; cases
          (r.person_name == pname && r.is_user == "False") <;> simp⟩
      rw [hnil] at this
      exact List.not_mem_nil r this
    · rw [if_neg hE, if_neg Bool.false_ne_true]
      refine ⟨by rw [List.length_map, hfst], ?_, ?_⟩
      · rw [collectionOf_setCollection_self _ _ _
          (knownTenant_getUserCollection s uid), hfst,
          deleteIds_filter_of_nodup _ _ h]
      · intro t ht
        rw [collectionOf_setCollection_ne _ _ _ _ ht, getUserCollection_snd]
  refine ⟨key.1, key.2.1, key.2.2, ?_, ?_⟩
  · intro hc
    rw [mem_names_get_user_persons, key.2.1] at hc
    rcases hc with ⟨r, hr, hT, hname⟩
    have hrmem := List.mem_filter.1 hr
    rcases hw r hrmem.1 with hTrue | hFalse
    · exact hT hTrue
    · have : (r.person_name == pname && r.is_user == "False") = true := by
        rw [Bool.and_eq_true]
        exact ⟨by simpa using hname, by simpa using hFalse⟩
      rw [this] at hrmem
      simp at hrmem
  · intro name hname
    rw [mem_names_get_user_persons, mem_names_get_user_persons, key.2.1]
    constructor
    · rintro ⟨r, hr, hT, hn⟩
      exact ⟨r, (List.mem_filter.1 hr).1, hT, hn⟩
    · rintro ⟨r, hr, hT, hn⟩
      refine ⟨r, List.mem_filter.2 ⟨hr, ?_⟩, hT, hn⟩
      have : (r.person_name == pname) = false := by
        rw [beq_eq_false_iff_ne]
        rw [hn]
        exact hname
      rw [this, Bool.false_and]
      rfl

/-- C6 witness: tenant "u1" with a self record (alice), and non-self
records Bob and Carol; deleting Bob. -/
theorem claim6_delete_by_person_witness :
    ((collectionOf u1Store "u1").map (fun r => r.voice_id)).Nodup
    ∧ (∀ r ∈ collectionOf u1Store "u1",
        r.is_user = "True" ∨ r.is_user = "False")
    ∧ ((delete_user_person_voices u1Store "u1" "Bob" false).1
        = ((collectionOf u1Store "u1").filter
            (fun r => r.person_name == "Bob" && r.is_user == "False")).length
      ∧ collectionOf (delete_user_person_voices u1Store "u1" "Bob" false).2 "u1"
        = (collectionOf u1Store "u1").filter
            (fun r => !(r.person_name == "Bob" && r.is_user == "False"))
      ∧ (∀ t, t ≠ "u1" →
          collectionOf (delete_user_person_voices u1Store "u1" "Bob" false).2 t
            = collectionOf u1Store t)
      ∧ "Bob" ∉ (get_user_persons
          (delete_user_person_voices u1Store "u1" "Bob" false).2 "u1" 999).map
            (fun p => p.person_name)
      ∧ ∀ name, name ≠ "Bob" →
          (name ∈ (get_user_persons
              (delete_user_person_voices u1Store "u1" "Bob" false).2 "u1"
                999).map (fun p => p.person_name)
            ↔ name ∈ (get_user_persons u1Store "u1" 999).map
                (fun p => p.person_name))) :=
  ⟨by with_unfolding_all decide, by with_unfolding_all decide,
   claim6_delete_by_person u1Store "u1" "Bob" 999
     (by with_unfolding_all decide) (by with_unfolding_all decide)⟩

/-- C7: for a fixed query, store and adapter behaviour, every search result
at threshold `t2` is also a search result at any lower threshold `t1`, with
the same `top_k` — the result set only grows as the threshold drops. -/
theorem claim7_threshold_monotonicity (dist : List ℚ → List ℚ → ℚ)
    (s : Store) (qf : String → Bool) (q : List ℚ) (uid : Option String)
    (θ1 θ2 : ℚ) (k : Nat) (h : θ1 < θ2) :
    ∀ m ∈ find_most_similar dist s qf q uid θ2 k,
      m ∈ find_most_similar dist s qf q uid θ1 k := by
  intro m hm
  rw [find_most_similar_eq] at hm ⊢
  exact rankTruncate_filter_mono _ θ1 θ2 (le_of_lt h) k m hm

/-- The highest-similarity match of `fanStore` under `distHead`. -/
def p1Match : SearchMatch :=
  { voice_id := "t1_p1_a1a1a1a1_100"
    user_id := "t1"
    person_id := "t1_p1_a1a1a1a1_100"
    person_name := "p1"
    relationship := "friend"
    is_user := false
    similarity := 1 - (1/10 : ℚ) / 2
    distance := 1/10
    created_at := "s" }

/-- C7 witness: a concrete match found at threshold 4/5 is also found at the
lower threshold 7/10. -/
theorem claim7_threshold_monotonicity_witness :
    ((7/10 : ℚ) < 4/5)
    ∧ p1Match ∈ find_most_similar distHead fanStore noFail [0] none (7/10) 3 :=
  ⟨by norm_num,
   claim7_threshold_monotonicity distHead fanStore noFail [0] none (7/10)
     (4/5) 3 (by norm_num) p1Match (by with_unfolding_all decide)⟩

/-- C10 counterexample: during fan-out, a failing adapter query for tenant
"a" does NOT make the search return the empty list — the claim's "if the
adapter query fails, it returns the empty list" fails: tenant "b"'s match is
still returned. -/
theorem claim10_counterexample :
    failA "a" = true
    ∧ (find_most_similar distZero abStore failA [0] none 0 10).map
        (fun m => m.user_id) = ["b"] := by
  with_unfolding_all decide

/-- C10 (amended): `find_most_similar` never propagates an exception — a
failing single-tenant query (nonempty tenant id) yields `[]`, which equals
the value of a successful search with no match; during fan-out a per-tenant
failure only skips that tenant: the result equals a fan-out over the store
restricted to the non-failing tenants with no failures at all. -/
theorem claim10_amended (dist : List ℚ → List ℚ → ℚ) (s : Store)
    (qf : String → Bool) (q : List ℚ) (uid : String) (θ : ℚ) (k : Nat)
    (h1 : uid ≠ "") (h2 : qf uid = true) :
    find_most_similar dist s qf q (some uid) θ k = []
    ∧ find_most_similar dist s qf q none θ k
        = find_most_similar dist (s.filter (fun p => !(qf p.1)))
            (fun _ => false) q none θ k
    ∧ find_most_similar dist ([] : Store) (fun _ => false) q (some uid) θ k
        = [] := by
  refine ⟨?_, ?_, ?_⟩
  · show (if uid = "" then _ else if qf uid then ([] : List SearchMatch)
      else _) = []
    rw [if_neg h1, if_pos h2]
  · show rankTruncate (fanoutCandidates dist s qf q θ k) k
      = rankTruncate (fanoutCandidates dist (s.filter (fun p => !(qf p.1)))
          (fun _ => false) q θ k) k
    rw [fanoutCandidates_degrade]
  · show (if uid = "" then _ else if (false : Bool) then ([] : List SearchMatch)
      else rankTruncate (filteredBatch dist (collectionOf [] uid) q θ k) k)
      = []
    rw [if_neg h1]
    show rankTruncate (filteredBatch dist [] q θ k) k = []
    unfold filteredBatch queryCollection rankTruncate
    simp [sortAscBy, sortDescBy]

/-- C10 amended witness: concrete instantiation with failing tenant "a". -/
theorem claim10_amended_witness :
    ("a" : String) ≠ "" ∧ failA "a" = true
    ∧ (find_most_similar distZero abStore failA [0] (some "a") 0 10 = []
      ∧ find_most_similar distZero abStore failA [0] none 0 10
          = find_most_similar distZero
              (abStore.filter (fun p => !(failA p.1))) (fun _ => false) [0]
              none 0 10
      ∧ find_most_similar distZero ([] : Store) (fun _ => false) [0]
          (some "a") 0 10 = []) :=
  ⟨by decide, by decide,
   claim10_amended distZero abStore failA [0] "a" 0 10 (by decide)
     (by decide)⟩

end VPR
